import Mathlib

/-!
Verification development for the CameraAutoPlayblast repository.

The orchestration logic of `CameraPlayBlast` (CameraPlayblast.py) is embedded
shallowly: pure string manipulation is translated to Lean functions over
`List Char`, the filesystem is an explicit record of existing directories,
host-application calls (view switch, capture, error display, directory
creation) are recorded as an explicit event trace, and the capture command is
an oracle of type `String → Except String Unit` so that both a succeeding and
a failing capture can be analysed.  Python `str.split`, `str.replace` and the
posix variants of `os.path.normpath`, `os.path.join`, `os.path.abspath` are
translated directly from their reference semantics, since the source calls
them on ordinary slash-separated paths.
-/

set_option autoImplicit false

/-- Python `s.split(sep)` for a one-character separator `sep`:
always returns a non-empty list of groups; `"".split(sep) == [""]`. -/
def splitChar (sep : Char) : List Char → List (List Char)
  | [] => [[]]
  | c :: cs =>
    if c = sep then [] :: splitChar sep cs
    else (c :: (splitChar sep cs).headD []) :: (splitChar sep cs).tail

/-- The characters of the literal `"Shape"` that the source strips from
camera shape names. -/
def shapeChars : List Char := ['S', 'h', 'a', 'p', 'e']

/-- Python `s.replace("Shape", "")`: remove every non-overlapping occurrence
of `"Shape"`, scanning left to right. -/
def removeShape : List Char → List Char
  | 'S' :: 'h' :: 'a' :: 'p' :: 'e' :: rest => removeShape rest
  | c :: rest => c :: removeShape rest
  | [] => []

/-- Holds when `"Shape"` occurs nowhere in the character list. -/
def shapeFree : List Char → Bool
  | [] => true
  | c :: cs => !(shapeChars.isPrefixOf (c :: cs)) && shapeFree cs

/-- Python `playblast_path.replace("\\", "/")`: each backslash character is
replaced by a forward slash. -/
def toForwardSlashes (s : String) : String :=
  String.mk (s.data.map (fun c => if c = '\\' then '/' else c))

/-- posix `os.path.join` restricted to two arguments, as used by the source. -/
def posixJoin (a b : String) : String :=
  if ['/'].isPrefixOf b.data then b
  else if a.data = [] ∨ a.data.getLast? = some '/' then a ++ b
  else a ++ "/" ++ b

/-- posix `os.path.normpath`, translated clause by clause from the CPython
reference implementation: empty input maps to `"."`, repeated separators and
`"."` components collapse, `".."` components cancel a preceding component
except at the root, and one or two leading slashes are preserved. -/
def normpath (path : String) : String :=
  if path.data = [] then "."
  else
    let slashes : Nat :=
      if ['/', '/', '/'].isPrefixOf path.data then 1
      else if ['/', '/'].isPrefixOf path.data then 2
      else if ['/'].isPrefixOf path.data then 1
      else 0
    let comps := splitChar '/' path.data
    let newComps := comps.foldl
      (fun acc comp =>
        if comp = [] ∨ comp = ['.'] then acc
        else if comp ≠ ['.', '.'] ∨ (slashes = 0 ∧ acc = []) ∨
            acc.getLast? = some ['.', '.'] then acc ++ [comp]
        else if acc ≠ [] then acc.dropLast
        else acc) []
    let joined := String.intercalate "/" (newComps.map String.mk)
    let res := String.mk (List.replicate slashes '/') ++ joined
    if res.data = [] then "." else res

/-- posix `os.path.isabs`. -/
def isabs (s : String) : Bool := ['/'].isPrefixOf s.data

/-- posix `os.path.abspath`, with the current working directory passed
explicitly. -/
def abspath (cwd s : String) : String :=
  if isabs s then normpath s else normpath (posixJoin cwd s)

/-- The filesystem as visible to the orchestration code: the set of existing
directories and the current working directory. -/
structure FS where
  dirs : List String
  cwd : String
deriving DecidableEq, Repr

/-- One observable host-application call made during a run: an error message
shown in the script editor, a directory-tree creation, a view switch
(`cm.lookThru`), or an invocation of `cm.playblast` with the given output
file name. -/
inductive Event where
  | errorMsg (msg : String)
  | makeDirs (path : String)
  | lookThru (camera : String)
  | captureAttempt (path : String)
deriving DecidableEq, Repr

/-- The per-source outcome of the batch, as described by the specification:
the source identifier, a success flag and an optional error detail. -/
structure PlayblastResult where
  source : String
  success : Bool
  detail : Option String
deriving DecidableEq, Repr

/-- The error messages of a trace, in order. -/
def errorMessages (evs : List Event) : List String :=
  evs.filterMap (fun e => match e with
    | Event.errorMsg m => some m
    | _ => none)

/-- Translation of `CameraPlayBlast.validate_and_get_filepath`: normalise the entered text;
if it is not an existing directory, display an error and return `""`. -/
def validate_and_get_filepath (fs : FS) (fileText : String) : String × List Event :=
  let filepath := normpath fileText
  if filepath ∈ fs.dirs then (filepath, [])
  else ("", [Event.errorMsg "File path doesn\x27t exist. Please provide a valid path."])

/-- Translation of `os.makedirs(path, exist_ok=...)`: with `exist_ok` unset it raises when
the directory already exists; otherwise it creates the directory and any
missing intermediate directories. -/
def makedirs (fs : FS) (path : String) (existOk : Bool) : Except Unit FS :=
  if path ∈ fs.dirs then
    if existOk then Except.ok fs else Except.error ()
  else
    let comps := splitChar '/' path.data
    let joinedUpTo := (List.range comps.length).map
      (fun i => String.intercalate "/" ((comps.take (i + 1)).map String.mk))
    let newAncestors := joinedUpTo.dropLast.filter
      (fun q => !(q == "") && !(fs.dirs.contains q))
    Except.ok { fs with dirs := fs.dirs ++ newAncestors ++ [path] }

/-- Translation of `CameraPlayBlast.ensure_directory`: `os.makedirs(path, exist_ok=True)`
followed by `os.path.abspath(path)`. -/
def ensure_directory (fs : FS) (path : String) : Except Unit (FS × String) :=
  match makedirs fs path true with
  | Except.error e => Except.error e
  | Except.ok fs1 => Except.ok (fs1, abspath fs1.cwd path)

/-- Translation of `CameraPlayBlast.get_scene_shot_name`: the saved scene short name up to
the first `.`; when that is empty, display an error and return `""`. -/
def get_scene_shot_name (sceneName : String) : String × List Event :=
  let shot_name := String.mk ((splitChar '.' sceneName.data).headD [])
  if shot_name = "" then
    ("", [Event.errorMsg "Scene name is missing. Please save the file and retry."])
  else (shot_name, [])

/-- The reserved system-camera shape names excluded by `show_connections`. -/
def exclude_list : List String := ["topShape", "frontShape", "sideShape", "perspShape"]

/-- Translation of `CameraPlayBlast.show_connections`, restricted to the list contents it
produces: for each enumerated camera, the membership test against
`exclude_list` uses `cam.split(":")[-1]` while the displayed identifier is
`cam.replace("Shape", "")`.  (The trailing `cm.select(clear=True)` of the
source only touches the scene selection, modelled separately by
`cmSelectClear`.) -/
def show_connections (cameras : List String) : List String :=
  (cameras.filter (fun cam =>
      !(exclude_list.contains (String.mk ((splitChar ':' cam.data).getLastD []))))).map
    (fun cam => String.mk (removeShape cam.data))

/-- Translation of `CameraPlayBlast.get_selected_cameras`: the scene selection filtered to
cameras (taken as input here); empty selection displays an error. -/
def get_selected_cameras (sceneSelection : List String) : List String × List Event :=
  if sceneSelection = [] then
    ([], [Event.errorMsg "No camera selected for the playblast. Please select a camera."])
  else (sceneSelection, [])

/-- Translation of `CameraPlayBlast.execute_playblast`: `cm.playblast` invoked with the
output filename with backslashes replaced; success or failure comes from the
capture oracle. -/
def execute_playblast (capture : String → Except String Unit) (playblast_path : String) :
    List Event × Except String Unit :=
  let fileName := toForwardSlashes playblast_path
  ([Event.captureAttempt fileName], capture fileName)

/-- Translation of `CameraPlayBlast.perform_playblast`: switch the view to the full camera
identifier, build the output path from `camera.split(":")[-1] + ".mov"`, try
the capture, and on failure display the error and keep going.  The recorded
`PlayblastResult` reflects the outcome for this one source. -/
def perform_playblast (capture : String → Except String Unit) (camera playblast_dir : String) :
    List Event × PlayblastResult :=
  let playblast_path :=
    posixJoin playblast_dir (String.mk ((splitChar ':' camera.data).getLastD []) ++ ".mov")
  match execute_playblast capture playblast_path with
  | (evs, Except.ok _) =>
    (Event.lookThru camera :: evs, ⟨camera, true, none⟩)
  | (evs, Except.error e) =>
    ((Event.lookThru camera :: evs) ++
       [Event.errorMsg ("Failed to create playblast for " ++ camera ++ ": " ++ e)],
     ⟨camera, false, some e⟩)

/-- The `for camera in selected_cameras` loop of `CameraPlayBlast.playblast`:
one `perform_playblast` per camera, in order. -/
def playblast_loop (capture : String → Except String Unit) (playblast_dir : String) :
    List String → List Event × List PlayblastResult
  | [] => ([], [])
  | cam :: rest =>
    let step := perform_playblast capture cam playblast_dir
    let tail := playblast_loop capture playblast_dir rest
    (step.1 ++ tail.1, step.2 :: tail.2)

/-- Translation of `CameraPlayBlast.playblast`: validate the root, resolve the shot name,
ensure the output directory, check the selection, then capture each selected
camera in order.  An `Except.error` result would be an exception escaping the
method. -/
def playblast (fs : FS) (fileText sceneName : String) (sceneSelection : List String)
    (capture : String → Except String Unit) :
    Except Unit (List Event × FS × List PlayblastResult) :=
  let v := validate_and_get_filepath fs fileText
  if v.1 = "" then Except.ok (v.2, fs, [])
  else
    let g := get_scene_shot_name sceneName
    if g.1 = "" then Except.ok (v.2 ++ g.2, fs, [])
    else
      match ensure_directory fs (posixJoin v.1 g.1) with
      | Except.error e => Except.error e
      | Except.ok fsdir =>
        let sel := get_selected_cameras sceneSelection
        if sel.1 = [] then
          Except.ok (v.2 ++ g.2 ++ [Event.makeDirs (posixJoin v.1 g.1)] ++ sel.2, fsdir.1, [])
        else
          let lp := playblast_loop capture fsdir.2 sel.1
          Except.ok (v.2 ++ g.2 ++ [Event.makeDirs (posixJoin v.1 g.1)] ++ sel.2 ++ lp.1,
            fsdir.1, lp.2)

/-- The scene-level active selection. -/
structure SceneSelection where
  active : List String
deriving DecidableEq, Repr

/-- Modelled from the spec: `clear_selection` of the SceneQueryService
(`cm.select(clear=True)`) empties the active selection. -/
def cmSelectClear (_s : SceneSelection) : SceneSelection := ⟨[]⟩

/-- Modelled from the spec: `set_selection` of the SceneQueryService
(`cm.select(items)` in default replace mode) makes the active selection
exactly the given identifiers. -/
def cmSelectItems (_s : SceneSelection) (items : List String) : SceneSelection := ⟨items⟩

/-- Translation of `CameraPlayBlast.current_selected`: read the items selected in the list
widget, clear the scene selection, then select exactly those items. -/
def current_selected (listWidgetSelected : List String) (scene : SceneSelection) :
    SceneSelection :=
  cmSelectItems (cmSelectClear scene) listWidgetSelected

/-- Written from the words of the specification, for comparison with the
source behaviour: derive the controllable identifier by stripping the known
shape-node suffix from the end, and only that suffix. -/
def stripShapeSuffix (s : String) : String :=
  if shapeChars.isSuffixOf s.data then String.mk (s.data.take (s.data.length - 5)) else s

theorem removeShape_cons (c : Char) (cs : List Char)
    (h : shapeChars.isPrefixOf (c :: cs) = false) :
    removeShape (c :: cs) = c :: removeShape cs := by
  refine removeShape.eq_2 c cs ?_
  intro rest1 hc hr
  subst hc; subst hr
  simp [shapeChars, List.isPrefixOf] at h

theorem noOverlap (s : List Char) (hne : s ≠ [])
    (h : shapeChars.isPrefixOf (s ++ shapeChars) = true) :
    shapeChars.isPrefixOf s = true := by
  rw [List.isPrefixOf_iff_prefix] at h ⊢
  rcases le_or_lt 5 s.length with hle | hlt
  · rw [List.prefix_iff_eq_take] at h
    have h5 : shapeChars.length = 5 := by decide
    rw [h5, List.take_append_eq_append_take, Nat.sub_eq_zero_of_le hle,
      List.take_zero, List.append_nil] at h
    rw [h]
    exact List.take_prefix 5 s
  · exfalso
    have h1 : 1 ≤ s.length := List.length_pos.mpr hne
    have h4 : s.length ≤ 4 := by omega
    have h5 : shapeChars.length = 5 := by decide
    have hs : shapeChars = s ++ shapeChars.take (5 - s.length) := by
      rw [List.prefix_iff_eq_take, h5, List.take_append_eq_append_take,
        List.take_of_length_le (by omega : s.length ≤ 5)] at h
      exact h
    have hsv : s = shapeChars.take s.length := by
      have := congrArg (List.take s.length) hs
      rw [List.take_left] at this
      exact this.symm
    have hcase : s.length = 1 ∨ s.length = 2 ∨ s.length = 3 ∨ s.length = 4 := by omega
    rcases hcase with h' | h' | h' | h' <;>
      (rw [h'] at hsv; rw [hsv] at h; revert h; decide)

theorem shapeFree_cons {c : Char} {cs : List Char} (h : shapeFree (c :: cs) = true) :
    shapeChars.isPrefixOf (c :: cs) = false ∧ shapeFree cs = true := by
  rw [shapeFree, Bool.and_eq_true, Bool.not_eq_true'] at h
  exact h

theorem removeShape_append_shape (s : List Char) (h : shapeFree s = true) :
    removeShape (s ++ shapeChars) = s := by
  induction s with
  | nil => decide
  | cons c cs ih =>
    obtain ⟨hpf, hcs⟩ := shapeFree_cons h
    have hpf2 : shapeChars.isPrefixOf (c :: (cs ++ shapeChars)) = false := by
      by_contra hT
      rw [Bool.not_eq_false] at hT
      have := noOverlap (c :: cs) (List.cons_ne_nil c cs) (by rw [List.cons_append]; exact hT)
      rw [this] at hpf
      exact absurd hpf (by decide)
    rw [List.cons_append, removeShape_cons c (cs ++ shapeChars) hpf2, ih hcs]

theorem removeShape_of_shapeFree (s : List Char) (h : shapeFree s = true) :
    removeShape s = s := by
  induction s with
  | nil => rfl
  | cons c cs ih =>
    obtain ⟨hpf, hcs⟩ := shapeFree_cons h
    rw [removeShape_cons c cs hpf, ih hcs]

theorem splitChar_ne_nil (sep : Char) (cs : List Char) : splitChar sep cs ≠ [] := by
  cases cs with
  | nil => simp [splitChar]
  | cons c cs =>
    rw [splitChar]
    split <;> simp

theorem splitChar_headD (sep : Char) (cs : List Char) :
    (splitChar sep cs).headD [] = cs.takeWhile (fun c => c != sep) := by
  induction cs with
  | nil => rfl
  | cons c cs ih =>
    rw [splitChar, List.takeWhile_cons]
    by_cases hc : c = sep
    · simp [hc]
    · simp only [if_neg hc, List.headD_cons]
      rw [if_pos (by simp [hc]), ih]

theorem splitChar_no_sep (sep : Char) (cs : List Char) (h : ∀ c ∈ cs, c ≠ sep) :
    splitChar sep cs = [cs] := by
  induction cs with
  | nil => rfl
  | cons c cs ih =>
    have hc : c ≠ sep := h c (List.mem_cons_self c cs)
    rw [splitChar, if_neg hc, ih (fun x hx => h x (List.mem_cons_of_mem c hx))]
    simp

theorem splitChar_append_len (sep : Char) (u v : List Char) :
    2 ≤ (splitChar sep (u ++ sep :: v)).length := by
  induction u with
  | nil =>
    rw [List.nil_append, splitChar, if_pos rfl, List.length_cons]
    have := splitChar_ne_nil sep v
    have := List.length_pos.mpr this
    omega
  | cons x u2 ih =>
    rw [List.cons_append, splitChar]
    by_cases hx : x = sep
    · rw [if_pos hx, List.length_cons]
      have := List.length_pos.mpr (splitChar_ne_nil sep (u2 ++ sep :: v))
      omega
    · rw [if_neg hx, List.length_cons, List.length_tail]
      omega

theorem splitChar_getLastD_append (sep : Char) (pre post : List Char)
    (h : ∀ c ∈ post, c ≠ sep) :
    (splitChar sep (pre ++ sep :: post)).getLastD [] = post := by
  induction pre with
  | nil =>
    rw [List.nil_append, splitChar, if_pos rfl, splitChar_no_sep sep post h]
    rfl
  | cons p pre2 ih =>
    rw [List.cons_append, splitChar]
    by_cases hp : p = sep
    · rw [if_pos hp]
      obtain ⟨x, xs, hxxs⟩ := List.exists_cons_of_ne_nil (splitChar_ne_nil sep (pre2 ++ sep :: post))
      rw [hxxs] at ih ⊢
      rw [List.getLastD_cons, List.getLastD_cons] at *
      exact ih
    · rw [if_neg hp]
      obtain ⟨x, xs, hxxs⟩ := List.exists_cons_of_ne_nil (splitChar_ne_nil sep (pre2 ++ sep :: post))
      have hlen := splitChar_append_len sep pre2 post
      rw [hxxs] at ih ⊢
      obtain ⟨y, ys, hyys⟩ : ∃ y ys, xs = y :: ys := by
        cases xs with
        | nil => rw [hxxs] at hlen; simp at hlen
        | cons y ys => exact ⟨y, ys, rfl⟩
      subst hyys
      simp only [List.headD_cons, List.tail_cons]
      rw [List.getLastD_cons, List.getLastD_cons] at *
      exact ih

theorem ite_dot_ne (c : Prop) [Decidable c] (res : String) (h : ¬ c → res.data ≠ []) :
    (if c then "." else res) ≠ "" := by
  by_cases hc : c
  · rw [if_pos hc]; decide
  · rw [if_neg hc]
    intro hcontra
    exact h hc (congrArg String.data hcontra)

theorem normpath_ne_empty (s : String) : normpath s ≠ "" := by
  rw [normpath]
  by_cases hd : s.data = []
  · rw [if_pos hd]; decide
  · rw [if_neg hd]
    exact ite_dot_ne _ _ (fun h => h)

theorem get_scene_shot_name_of_ne {s : String} (h : (get_scene_shot_name s).1 ≠ "") :
    get_scene_shot_name s = (String.mk ((splitChar '.' s.data).headD []), []) := by
  have hne : String.mk ((splitChar '.' s.data).headD []) ≠ "" := by
    intro hc
    apply h
    rw [get_scene_shot_name, if_pos hc]
  rw [get_scene_shot_name]
  simp only [if_neg hne]

theorem makedirs_ok (fs : FS) (p : String) :
    ∃ fs1, makedirs fs p true = Except.ok fs1 ∧ fs1.cwd = fs.cwd ∧ p ∈ fs1.dirs := by
  rw [makedirs]
  by_cases hp : p ∈ fs.dirs
  · exact ⟨fs, by rw [if_pos hp, if_pos rfl], rfl, hp⟩
  · rw [if_neg hp]
    refine ⟨_, rfl, rfl, ?_⟩
    simp

theorem ensure_directory_ok (fs : FS) (p : String) :
    ∃ fs1, ensure_directory fs p = Except.ok (fs1, abspath fs.cwd p) ∧
      fs1.cwd = fs.cwd ∧ p ∈ fs1.dirs := by
  obtain ⟨fs1, heq, hcwd, hmem⟩ := makedirs_ok fs p
  refine ⟨fs1, ?_, hcwd, hmem⟩
  rw [ensure_directory, heq]
  show Except.ok (fs1, abspath fs1.cwd p) = Except.ok (fs1, abspath fs.cwd p)
  rw [hcwd]

theorem validate_of_mem {fs : FS} {t : String} (h : normpath t ∈ fs.dirs) :
    validate_and_get_filepath fs t = (normpath t, []) := by
  rw [validate_and_get_filepath, if_pos h]

theorem playblast_run_eq (fs : FS) (text scene shot : String) (cams : List String)
    (capture : String → Except String Unit)
    (h1 : normpath text ∈ fs.dirs)
    (h2 : get_scene_shot_name scene = (shot, []))
    (h2b : shot ≠ "")
    (h3 : cams ≠ []) :
    ∃ fs1, fs1.cwd = fs.cwd ∧
      posixJoin (normpath text) shot ∈ fs1.dirs ∧
      playblast fs text scene cams capture =
        Except.ok
          (Event.makeDirs (posixJoin (normpath text) shot) ::
             (playblast_loop capture (abspath fs.cwd (posixJoin (normpath text) shot)) cams).1,
           fs1,
           (playblast_loop capture (abspath fs.cwd (posixJoin (normpath text) shot)) cams).2) := by
  obtain ⟨fs1, hens, hcwd, hmem⟩ := ensure_directory_ok fs (posixJoin (normpath text) shot)
  refine ⟨fs1, hcwd, hmem, ?_⟩
  rw [playblast, validate_of_mem h1]
  simp only
  rw [if_neg (normpath_ne_empty text), h2]
  simp only
  rw [if_neg h2b, hens]
  simp only [get_selected_cameras, if_neg h3]
  simp

theorem perform_playblast_parts (capture : String → Except String Unit) (cam dir : String) :
    (perform_playblast capture cam dir).2.source = cam ∧
    Event.lookThru cam ∈ (perform_playblast capture cam dir).1 ∧
    Event.captureAttempt
        (toForwardSlashes (posixJoin dir (String.mk ((splitChar ':' cam.data).getLastD []) ++ ".mov"))) ∈
      (perform_playblast capture cam dir).1 ∧
    ((perform_playblast capture cam dir).2.success = false →
      ∃ e, (perform_playblast capture cam dir).2.detail = some e ∧
        Event.errorMsg ("Failed to create playblast for " ++ cam ++ ": " ++ e) ∈
          (perform_playblast capture cam dir).1) := by
  rw [perform_playblast, execute_playblast]
  rcases hcap :
      capture (toForwardSlashes (posixJoin dir (String.mk ((splitChar ':' cam.data).getLastD []) ++ ".mov"))) with
    e | u
  · refine ⟨rfl, by simp, by simp, ?_⟩
    intro _
    exact ⟨e, rfl, by simp⟩
  · refine ⟨rfl, by simp, by simp, ?_⟩
    intro hfalse
    simp at hfalse

theorem playblast_loop_sources (capture : String → Except String Unit) (dir : String)
    (cams : List String) :
    (playblast_loop capture dir cams).2.map PlayblastResult.source = cams := by
  induction cams with
  | nil => rfl
  | cons cam rest ih =>
    rw [playblast_loop]
    simp only [List.map_cons, ih]
    rw [(perform_playblast_parts capture cam dir).1]

theorem playblast_loop_mem_events (capture : String → Except String Unit) (dir : String)
    (cams : List String) (cam : String) (h : cam ∈ cams) :
    Event.lookThru cam ∈ (playblast_loop capture dir cams).1 ∧
    Event.captureAttempt
        (toForwardSlashes (posixJoin dir (String.mk ((splitChar ':' cam.data).getLastD []) ++ ".mov"))) ∈
      (playblast_loop capture dir cams).1 := by
  induction cams with
  | nil => cases h
  | cons c rest ih =>
    rw [playblast_loop]
    simp only [List.mem_append]
    rcases List.mem_cons.mp h with hc | hrest
    · subst hc
      obtain ⟨_, hl, hcap, _⟩ := perform_playblast_parts capture cam dir
      exact ⟨Or.inl hl, Or.inl hcap⟩
    · obtain ⟨hl, hcap⟩ := ih hrest
      exact ⟨Or.inr hl, Or.inr hcap⟩

theorem playblast_loop_failures (capture : String → Except String Unit) (dir : String)
    (cams : List String) :
    ∀ r ∈ (playblast_loop capture dir cams).2, r.success = false →
      ∃ e, r.detail = some e ∧
        Event.errorMsg ("Failed to create playblast for " ++ r.source ++ ": " ++ e) ∈
          (playblast_loop capture dir cams).1 := by
  induction cams with
  | nil => intro r hr; cases hr
  | cons c rest ih =>
    intro r hr hfail
    rw [playblast_loop] at hr ⊢
    simp only [List.mem_cons] at hr
    simp only [List.mem_append]
    rcases hr with hr | hr
    · obtain ⟨hsrc, _, _, hrec⟩ := perform_playblast_parts capture c dir
      subst hr
      obtain ⟨e, hd, hm⟩ := hrec hfail
      rw [hsrc]
      exact ⟨e, hd, Or.inl hm⟩
    · obtain ⟨e, hd, hm⟩ := ih r hr hfail
      exact ⟨e, hd, Or.inr hm⟩

theorem takeWhile_dot_nil_iff (l : List Char) :
    l.takeWhile (fun c => c != '.') = [] ↔ (l = [] ∨ l.head? = some '.') := by
  cases l with
  | nil => simp
  | cons c cs =>
    by_cases hc : c = '.'
    · subst hc; simp [List.takeWhile_cons]
    · simp [List.takeWhile_cons, hc]

/-- Claim C1: for every non-empty selected-source list, once the root validates
and the shot name resolves, `playblast` produces exactly one `PlayblastResult`
per source, in the order the sources were given, for every capture oracle: a
capture failure is caught, recorded with its detail, and iteration continues
with the next source. -/
theorem claim_C1_one_result_per_source (fs : FS) (text scene : String) (cams : List String)
    (capture : String → Except String Unit)
    (h1 : normpath text ∈ fs.dirs)
    (h2 : (get_scene_shot_name scene).1 ≠ "")
    (h3 : cams ≠ []) :
    ∃ evs fs1 res, playblast fs text scene cams capture = Except.ok (evs, fs1, res) ∧
      res.map PlayblastResult.source = cams ∧
      (∀ r ∈ res, r.success = false → ∃ e, r.detail = some e) := by
  have hg := get_scene_shot_name_of_ne h2
  have h2b : String.mk ((splitChar '.' scene.data).headD []) ≠ "" := by
    rw [hg] at h2; exact h2
  obtain ⟨fs1, hcwd, hmem, heq⟩ := playblast_run_eq fs text scene _ cams capture h1 hg h2b h3
  refine ⟨_, fs1, _, heq, playblast_loop_sources capture _ cams, ?_⟩
  intro r hr hf
  obtain ⟨e, hd, _⟩ := playblast_loop_failures capture _ cams r hr hf
  exact ⟨e, hd⟩

/-- Concrete instantiation of `claim_C1_one_result_per_source`. -/
theorem claim_C1_witness :
    ∃ evs fs1 res,
      playblast ⟨["/out"], "/w"⟩ "/out" "shotA.mb" ["camX", "ns:camY"]
          (fun p => if p = "/out/shotA/camY.mov" then Except.error "boom" else Except.ok ()) =
        Except.ok (evs, fs1, res) ∧
      res.map PlayblastResult.source = ["camX", "ns:camY"] ∧
      (∀ r ∈ res, r.success = false → ∃ e, r.detail = some e) :=
  claim_C1_one_result_per_source ⟨["/out"], "/w"⟩ "/out" "shotA.mb" ["camX", "ns:camY"]
    (fun p => if p = "/out/shotA/camY.mov" then Except.error "boom" else Except.ok ())
    (by decide) (by decide) (by decide)

/-- Claim C2, counterexample: on a concrete run with one succeeding and one
failing source, `playblast` emits exactly the one per-source failure message
and nothing more, so it does not report final counts of succeeded versus
failed sources (that would require at least one message beyond the
per-failure ones). -/
theorem claim_C2_counterexample :
    playblast ⟨["/out"], "/w"⟩ "/out" "shotA.mb" ["camX", "ns:camY"]
        (fun p => if p = "/out/shotA/camY.mov" then Except.error "boom" else Except.ok ()) =
      Except.ok
        ([Event.makeDirs "/out/shotA", Event.lookThru "camX",
          Event.captureAttempt "/out/shotA/camX.mov", Event.lookThru "ns:camY",
          Event.captureAttempt "/out/shotA/camY.mov",
          Event.errorMsg "Failed to create playblast for ns:camY: boom"],
         ⟨["/out", "/out/shotA"], "/w"⟩,
         [⟨"camX", true, none⟩, ⟨"ns:camY", false, some "boom"⟩]) ∧
    errorMessages
        [Event.makeDirs "/out/shotA", Event.lookThru "camX",
         Event.captureAttempt "/out/shotA/camX.mov", Event.lookThru "ns:camY",
         Event.captureAttempt "/out/shotA/camY.mov",
         Event.errorMsg "Failed to create playblast for ns:camY: boom"] =
      ["Failed to create playblast for ns:camY: boom"] ∧
    (([⟨"camX", true, none⟩, ⟨"ns:camY", false, some "boom"⟩] : List PlayblastResult).filter
        (fun r => !r.success)).length = 1 ∧
    ¬ ((([⟨"camX", true, none⟩, ⟨"ns:camY", false, some "boom"⟩] : List PlayblastResult).filter
          (fun r => !r.success)).length + 1 ≤
        (errorMessages
          [Event.makeDirs "/out/shotA", Event.lookThru "camX",
           Event.captureAttempt "/out/shotA/camX.mov", Event.lookThru "ns:camY",
           Event.captureAttempt "/out/shotA/camY.mov",
           Event.errorMsg "Failed to create playblast for ns:camY: boom"]).length) := by
  refine ⟨rfl, rfl, rfl, by decide⟩

/-- Claim C2, amended: `playblast` always returns without an escaping
exception and each failed source is reported individually with its error
detail; no final succeeded-versus-failed count summary is emitted. -/
theorem claim_C2_amended (fs : FS) (text scene : String) (cams : List String)
    (capture : String → Except String Unit) :
    ∃ evs fs1 res, playblast fs text scene cams capture = Except.ok (evs, fs1, res) ∧
      ∀ r ∈ res, r.success = false →
        ∃ e, r.detail = some e ∧
          Event.errorMsg ("Failed to create playblast for " ++ r.source ++ ": " ++ e) ∈ evs := by
  rw [playblast]
  dsimp only
  split
  · exact ⟨_, _, _, rfl, by intro r hr; cases hr⟩
  · split
    · exact ⟨_, _, _, rfl, by intro r hr; cases hr⟩
    · obtain ⟨fs1, hens, hcwd, hmem⟩ :=
        ensure_directory_ok fs
          (posixJoin (validate_and_get_filepath fs text).1 (get_scene_shot_name scene).1)
      rw [hens]
      simp only
      split
      · exact ⟨_, _, _, rfl, by intro r hr; cases hr⟩
      · refine ⟨_, _, _, rfl, ?_⟩
        intro r hr hf
        obtain ⟨e, hd, hm⟩ :=
          playblast_loop_failures capture
            (abspath fs.cwd
              (posixJoin (validate_and_get_filepath fs text).1 (get_scene_shot_name scene).1))
            (get_selected_cameras cams).1 r hr hf
        refine ⟨e, hd, ?_⟩
        simp only [List.mem_append]
        exact Or.inr hm

/-- Concrete instantiation of `claim_C2_amended`. -/
theorem claim_C2_amended_witness :
    ∃ evs fs1 res,
      playblast ⟨["/out"], "/w"⟩ "/out" "shotA.mb" ["camX", "ns:camY"]
          (fun p => if p = "/out/shotA/camY.mov" then Except.error "boom" else Except.ok ()) =
        Except.ok (evs, fs1, res) ∧
      ∀ r ∈ res, r.success = false →
        ∃ e, r.detail = some e ∧
          Event.errorMsg ("Failed to create playblast for " ++ r.source ++ ": " ++ e) ∈ evs :=
  claim_C2_amended ⟨["/out"], "/w"⟩ "/out" "shotA.mb" ["camX", "ns:camY"]
    (fun p => if p = "/out/shotA/camY.mov" then Except.error "boom" else Except.ok ())

/-- Claim C3: when the normalized root text is not an existing directory,
`playblast` reports the invalid-root error and stops: the filesystem is
returned unchanged, no directory is created, no view switch or capture is
attempted, and no result is produced. -/
theorem claim_C3_invalid_root_stops (fs : FS) (text scene : String) (cams : List String)
    (capture : String → Except String Unit)
    (h : normpath text ∉ fs.dirs) :
    playblast fs text scene cams capture =
      Except.ok
        ([Event.errorMsg "File path doesn\x27t exist. Please provide a valid path."], fs, []) := by
  rw [playblast, validate_and_get_filepath, if_neg h]
  dsimp only
  rw [if_pos rfl]

/-- Concrete instantiation of `claim_C3_invalid_root_stops`. -/
theorem claim_C3_witness :
    playblast ⟨[], "/w"⟩ "/nope" "shotA.mb" ["camX"] (fun _ => Except.ok ()) =
      Except.ok
        ([Event.errorMsg "File path doesn\x27t exist. Please provide a valid path."],
          ⟨[], "/w"⟩, []) :=
  claim_C3_invalid_root_stops ⟨[], "/w"⟩ "/nope" "shotA.mb" ["camX"] (fun _ => Except.ok ())
    (by decide)

/-- Claim C4: for every selected source, the run switches the view with the
full original identifier (namespace included) while the capture is attempted
at a file named after the display identifier obtained by stripping the
namespace (the text after the last colon), joined to the output directory
with the `.mov` extension. -/
theorem claim_C4_namespace_handling (fs : FS) (text scene : String) (cams : List String)
    (capture : String → Except String Unit) (cam : String)
    (h1 : normpath text ∈ fs.dirs)
    (h2 : (get_scene_shot_name scene).1 ≠ "")
    (hcam : cam ∈ cams) :
    ∃ evs fs1 res, playblast fs text scene cams capture = Except.ok (evs, fs1, res) ∧
      Event.lookThru cam ∈ evs ∧
      Event.captureAttempt
          (toForwardSlashes
            (posixJoin (abspath fs.cwd (posixJoin (normpath text) (get_scene_shot_name scene).1))
              (String.mk ((splitChar ':' cam.data).getLastD []) ++ ".mov"))) ∈ evs ∧
      (∀ pre post : List Char, cam.data = pre ++ ':' :: post → (∀ c ∈ post, c ≠ ':') →
        String.mk ((splitChar ':' cam.data).getLastD []) = String.mk post) := by
  have h3 : cams ≠ [] := List.ne_nil_of_mem hcam
  have hg := get_scene_shot_name_of_ne h2
  have h2b : String.mk ((splitChar '.' scene.data).headD []) ≠ "" := by
    rw [hg] at h2; exact h2
  obtain ⟨fs1, hcwd, hmem, heq⟩ := playblast_run_eq fs text scene _ cams capture h1 hg h2b h3
  rw [hg]
  obtain ⟨hlook, hcap⟩ :=
    playblast_loop_mem_events capture
      (abspath fs.cwd (posixJoin (normpath text) (String.mk ((splitChar '.' scene.data).headD []))))
      cams cam hcam
  refine ⟨_, fs1, _, heq, List.mem_cons_of_mem _ hlook, List.mem_cons_of_mem _ hcap, ?_⟩
  intro pre post hpre hpost
  rw [hpre, splitChar_getLastD_append ':' pre post hpost]

/-- Concrete instantiation of `claim_C4_namespace_handling`. -/
theorem claim_C4_witness :
    ∃ evs fs1 res,
      playblast ⟨["/out"], "/w"⟩ "/out" "shotA.mb" ["ns:camA"] (fun _ => Except.ok ()) =
        Except.ok (evs, fs1, res) ∧
      Event.lookThru "ns:camA" ∈ evs ∧
      Event.captureAttempt "/out/shotA/camA.mov" ∈ evs := by
  obtain ⟨evs, fs1, res, heq, hlook, hcap, _⟩ :=
    claim_C4_namespace_handling ⟨["/out"], "/w"⟩ "/out" "shotA.mb" ["ns:camA"]
      (fun _ => Except.ok ()) "ns:camA" (by decide) (by decide) (by decide)
  exact ⟨evs, fs1, res, heq, hlook, hcap⟩

/-- Claim C5, counterexample: the saved name `".mb"` is non-empty, yet
`get_scene_shot_name` fails with the missing-scene-name report, refuting that
failure happens exactly when the saved name is empty or absent. -/
theorem claim_C5_counterexample :
    get_scene_shot_name ".mb" =
      ("", [Event.errorMsg "Scene name is missing. Please save the file and retry."]) ∧
    (".mb" : String) ≠ "" := by
  exact ⟨by decide, by decide⟩

/-- Claim C5, amended: `get_scene_shot_name` returns the text of the saved
short filename before the first dot, and fails with the missing-scene-name
report exactly when that text is empty, i.e. when the saved name is empty or
begins with a dot. -/
theorem claim_C5_amended (name : String) :
    (get_scene_shot_name name).1 = String.mk (name.data.takeWhile (fun c => c != '.')) ∧
    (((get_scene_shot_name name).1 = "" ∧
        (get_scene_shot_name name).2 =
          [Event.errorMsg "Scene name is missing. Please save the file and retry."]) ↔
      (name.data = [] ∨ name.data.head? = some '.')) ∧
    (¬ (name.data = [] ∨ name.data.head? = some '.') → (get_scene_shot_name name).2 = []) := by
  have hKey : (splitChar '.' name.data).headD [] = name.data.takeWhile (fun c => c != '.') :=
    splitChar_headD '.' name.data
  have hmk : (String.mk (name.data.takeWhile (fun c => c != '.')) = "") ↔
      (name.data = [] ∨ name.data.head? = some '.') := by
    rw [String.ext_iff]
    show name.data.takeWhile (fun c => c != '.') = [] ↔ _
    exact takeWhile_dot_nil_iff name.data
  rw [get_scene_shot_name, hKey]
  by_cases hc : String.mk (name.data.takeWhile (fun c => c != '.')) = ""
  · rw [if_pos hc]
    refine ⟨hc.symm, ?_, ?_⟩
    · constructor
      · intro _
        exact hmk.mp hc
      · intro _
        exact ⟨rfl, rfl⟩
    · intro hn
      exact absurd (hmk.mp hc) hn
  · rw [if_neg hc]
    refine ⟨rfl, ?_, fun _ => rfl⟩
    constructor
    · rintro ⟨hfst, _⟩
      exact absurd hfst hc
    · intro hr
      exact absurd (hmk.mpr hr) hc

/-- Concrete instantiation of `claim_C5_amended`. -/
theorem claim_C5_amended_witness :
    (get_scene_shot_name "shotA.mb").1 =
      String.mk ("shotA.mb".data.takeWhile (fun c => c != '.')) ∧
    (((get_scene_shot_name "shotA.mb").1 = "" ∧
        (get_scene_shot_name "shotA.mb").2 =
          [Event.errorMsg "Scene name is missing. Please save the file and retry."]) ↔
      ("shotA.mb".data = [] ∨ "shotA.mb".data.head? = some '.')) ∧
    (¬ ("shotA.mb".data = [] ∨ "shotA.mb".data.head? = some '.') →
      (get_scene_shot_name "shotA.mb").2 = []) :=
  claim_C5_amended "shotA.mb"

/-- Claim C6: `show_connections` strips the namespace prefix only for the
membership test against the reserved system-camera names, excluding a source
exactly when its namespace-stripped short name is in `exclude_list`; the
identifier returned for a kept source is built from the full original
identifier, so its namespace is kept, and a namespaced `"ns:perspShape"` is
excluded. -/
theorem claim_C6_exclusion_by_stripped_name :
    (∀ (cams : List String) (cam : String),
      show_connections (cams ++ [cam]) =
        show_connections cams ++
          (if exclude_list.contains (String.mk ((splitChar ':' cam.data).getLastD [])) then []
           else [String.mk (removeShape cam.data)])) ∧
    show_connections ["ns:perspShape", "ns:camShape"] = ["ns:cam"] := by
  constructor
  · intro cams cam
    rw [show_connections, show_connections, List.filter_append, List.map_append]
    congr 1
    by_cases hm : String.mk ((splitChar ':' cam.data).getLastD []) ∈ exclude_list
    · rw [List.getLastD_eq_getLast?] at hm
      simp [List.filter, hm]
    · rw [List.getLastD_eq_getLast?] at hm
      simp [List.filter, hm]
  · decide

/-- Claim C7, counterexample: for the source `"myShapeCamShape"`,
`show_connections` also removes the interior occurrence of `"Shape"`,
differing from stripping only the trailing suffix as the claim states. -/
theorem claim_C7_counterexample :
    show_connections ["myShapeCamShape"] = ["myCam"] ∧
    stripShapeSuffix "myShapeCamShape" = "myShapeCam" ∧
    ("myCam" : String) ≠ "myShapeCam" := by
  refine ⟨by decide, by decide, by decide⟩

/-- Claim C7, amended: the identifier returned for a kept source removes
every occurrence of `"Shape"` from the source identifier; when `"Shape"`
occurs only as the trailing suffix (or not at all) this coincides with
stripping exactly that suffix, but interior occurrences are removed too. -/
theorem claim_C7_amended :
    (∀ s : List Char, shapeFree s = true →
      removeShape (s ++ shapeChars) = s ∧ removeShape s = s) ∧
    show_connections ["myShapeCamShape"] = ["myCam"] :=
  ⟨fun s h => ⟨removeShape_append_shape s h, removeShape_of_shapeFree s h⟩, by decide⟩

/-- Concrete instantiation of `claim_C7_amended`. -/
theorem claim_C7_amended_witness :
    (shapeFree "myCam".data = true ∧
      removeShape ("myCam".data ++ shapeChars) = "myCam".data ∧
      removeShape "myCam".data = "myCam".data) ∧
    show_connections ["myShapeCamShape"] = ["myCam"] :=
  ⟨⟨by decide, claim_C7_amended.1 "myCam".data (by decide)⟩, claim_C7_amended.2⟩

/-- Claim C8: `ensure_directory` is idempotent: for every root and shot
identifier, a second call on the same joined path returns the same resolved
absolute path and the same filesystem, with no error, because the directory
already exists after the first call. -/
theorem claim_C8_ensure_directory_idempotent (fs : FS) (root shot : String) :
    ∃ fs1 a, ensure_directory fs (posixJoin root shot) = Except.ok (fs1, a) ∧
      ensure_directory fs1 (posixJoin root shot) = Except.ok (fs1, a) := by
  obtain ⟨fs1, h1, hcwd, hmem⟩ := ensure_directory_ok fs (posixJoin root shot)
  refine ⟨fs1, abspath fs.cwd (posixJoin root shot), h1, ?_⟩
  rw [ensure_directory, makedirs, if_pos hmem, if_pos rfl]
  show Except.ok (fs1, abspath fs1.cwd (posixJoin root shot)) = _
  rw [hcwd]

/-- Claim C9: `current_selected` clears the scene active selection and then
sets it to exactly the identifiers selected in the presentation list,
irrespective of the previous scene selection; an empty display selection
makes the scene selection empty. -/
theorem claim_C9_selection_sync (items : List String) (scene : SceneSelection) :
    current_selected items scene = ⟨items⟩ ∧ current_selected [] scene = ⟨[]⟩ :=
  ⟨rfl, rfl⟩

/-- Claim C10: the empty root text normalizes to `"."`, which validates
whenever the current working directory exists, so validation succeeds
returning `"."` and the batch proceeds: the shot directory is created under
`"."` and one result per selected source is produced. -/
theorem claim_C10_empty_root_is_cwd (fs : FS) (scene : String) (cams : List String)
    (capture : String → Except String Unit)
    (h1 : "." ∈ fs.dirs)
    (h2 : (get_scene_shot_name scene).1 ≠ "")
    (h3 : cams ≠ []) :
    validate_and_get_filepath fs "" = (".", []) ∧
    ∃ evs fs1 res, playblast fs "" scene cams capture = Except.ok (evs, fs1, res) ∧
      Event.makeDirs (posixJoin "." (get_scene_shot_name scene).1) ∈ evs ∧
      res.map PlayblastResult.source = cams := by
  have hn : normpath "" = "." := rfl
  have h1b : normpath "" ∈ fs.dirs := by rw [hn]; exact h1
  refine ⟨by rw [validate_of_mem h1b, hn], ?_⟩
  have hg := get_scene_shot_name_of_ne h2
  have h2b : String.mk ((splitChar '.' scene.data).headD []) ≠ "" := by
    rw [hg] at h2; exact h2
  obtain ⟨fs1, hcwd, hmem, heq⟩ := playblast_run_eq fs "" scene _ cams capture h1b hg h2b h3
  rw [hn] at heq
  rw [hg]
  exact ⟨_, fs1, _, heq, List.mem_cons_self _ _, playblast_loop_sources capture _ cams⟩

/-- Concrete instantiation of `claim_C10_empty_root_is_cwd`. -/
theorem claim_C10_witness :
    validate_and_get_filepath ⟨["."], "/w"⟩ "" = (".", []) ∧
    ∃ evs fs1 res,
      playblast ⟨["."], "/w"⟩ "" "shotA.mb" ["camX"] (fun _ => Except.ok ()) =
        Except.ok (evs, fs1, res) ∧
      Event.makeDirs "./shotA" ∈ evs ∧
      res.map PlayblastResult.source = ["camX"] :=
  claim_C10_empty_root_is_cwd ⟨["."], "/w"⟩ "shotA.mb" ["camX"] (fun _ => Except.ok ())
    (by decide) (by decide) (by decide)
